import Mathlib

/-!
Verification of the tiny_lang_parser_rust repository.

The development shallowly embeds the grammar-driven parser and the
tree-walking interpreter of the repository (src/src/parser/mod.rs, and the
duplicate implementation in src/src/lib.rs) and proves the spec's claims
about them.

Conventions of the embedding:
* Rust `i64` values are modelled as `Int`; the wrapping behaviour of the
  release-profile arithmetic operators is made explicit through `wrap64`
  (two's-complement wrap-around at 2^64).  Rust's signed division panics
  (aborts the process) on `i64::MIN / -1` in every build profile; this
  outcome is modelled by the explicit `panicked` result constructor.
* Fallible Rust functions returning `Result` are modelled with `Except`.
* The pest grammar file `tiny_lang.pest` is not part of the sources; the
  pest engine layer (tokenisation and pair-tree construction) is modelled
  from the spec's grammar, marked `Modelled from the spec:` below.  The
  hand-written AST-construction functions and the interpreter are
  translated from the Rust sources.
* Recursion over the pest pair tree in the Rust sources is embedded with an
  explicit fuel parameter bounding the recursion depth; callers always pass
  fuel exceeding the depth of the tree, so the fuel-exhaustion branches are
  unreachable on real inputs.
-/

/-- Grammar rules of tiny_lang.pest, mirroring the derived `Rule` enum. -/
inductive Rule where
  | program
  | statement
  | assignment
  | expression
  | term
  | factor
  | add_op
  | mul_op
  | number
  | identifier
deriving DecidableEq

/-- AST nodes, embedding `ASTNode` from src/src/parser/mod.rs (the `Box`
indirections of the Rust type are direct subterms here; `i64` is `Int`). -/
inductive ASTNode where
  | Number (n : Int)
  | Identifier (name : String)
  | Assignment (name : String) (value : ASTNode)
  | Add (l r : ASTNode)
  | Sub (l r : ASTNode)
  | Mul (l r : ASTNode)
  | Div (l r : ASTNode)
deriving DecidableEq

/-- Parser errors, embedding `ParseError` from src/src/parser/mod.rs.  The
pest error payload of `PestError` is abstracted away (it is never inspected
by the library).  The same type serves for the structurally identical
`ParseError` of src/src/lib.rs (whose `PestError` payload is unboxed). -/
inductive ParseError where
  | PestError
  | UnexpectedRule (r : Rule)
  | InvalidNumber (s : String)
  | UnexpectedEnd (expected : Rule)
deriving DecidableEq

/-- Interpreter errors, embedding `EvalError` from src/src/parser/mod.rs. -/
inductive EvalError where
  | UndefinedVariable (name : String)
  | DivisionByZero
  | RuntimeError (msg : String)
deriving DecidableEq

/-- Tokens of the lexical layer.  Modelled from the spec: the grammar file
tiny_lang.pest is not under src/; per spec §4.1 the terminals are numbers
(one or more ASCII digits), identifiers (one or more lowercase ASCII
letters), the operator and punctuation characters, with whitespace
insignificant between tokens. -/
inductive Tok where
  | num (s : String)
  | ident (s : String)
  | plus
  | minus
  | star
  | slash
  | eq
  | lparen
  | rparen
  | semi
deriving DecidableEq

/-- A pest parse-tree pair: rule tag, matched text (`as_str`), and inner
pairs (`into_inner`).  Composite pairs built by the engine model below carry
`""` as text because the Rust sources never read `as_str` of a composite
pair — only of `number`, `identifier`, `add_op` and `mul_op` pairs. -/
inductive Pair where
  | mk (rule : Rule) (str : String) (inner : List Pair)

def Pair.rule : Pair → Rule
  | .mk r _ _ => r

def Pair.str : Pair → String
  | .mk _ s _ => s

def Pair.inner : Pair → List Pair
  | .mk _ _ i => i

mutual
/-- Size of a pair tree (number of pairs); used to compute a fuel bound
exceeding the tree depth. -/
def pairSize : Pair → Nat
  | .mk _ _ inner => 1 + pairListSize inner

def pairListSize : List Pair → Nat
  | [] => 0
  | p :: rest => pairSize p + pairListSize rest
end

/-- The i64 maximum, 2^63 - 1. -/
def i64max : Int := 9223372036854775807

/-- The i64 minimum, -2^63. -/
def i64min : Int := -9223372036854775808

/-- Two's-complement wrap-around into the i64 range, modelling Rust's
release-profile (wrapping) `+`, `-`, `*` on `i64`. -/
def wrap64 (x : Int) : Int :=
  (x + 9223372036854775808) % 18446744073709551616 - 9223372036854775808

/-- Whether a character is an ASCII digit. -/
def isDigitChar (c : Char) : Bool :=
  48 ≤ c.toNat && c.toNat ≤ 57

/-- Whether a character is a lowercase ASCII letter. -/
def isLowerChar (c : Char) : Bool :=
  97 ≤ c.toNat && c.toNat ≤ 122

/-- Whether a character is whitespace skipped between tokens. -/
def isWsChar (c : Char) : Bool :=
  c = ' ' || c = '\t' || c = '\n' || c = '\r'

/-- Numeric value of an ASCII digit character. -/
def digitVal (c : Char) : Nat := c.toNat - 48

/-- Accumulating decimal evaluation of a digit list; fails on the first
non-digit character. -/
def parseDigitsAcc : Nat → List Char → Option Nat
  | acc, [] => some acc
  | acc, c :: cs =>
    if isDigitChar c then parseDigitsAcc (acc * 10 + digitVal c) cs else none

/-- Decimal value of a non-empty all-digit character list; `none` when the
list is empty or contains a non-digit. -/
def digitsToNat : List Char → Option Nat
  | [] => none
  | c :: cs => if isDigitChar c then parseDigitsAcc (digitVal c) cs else none

/-- Model of Rust's `str::parse::<i64>` (`i64::from_str`): an optional sign
followed by one or more digits, rejected unless the value fits in i64. -/
def parse_i64 (s : String) : Option Int :=
  match s.data with
  | [] => none
  | c :: cs =>
    if c = '-' then
      match digitsToNat cs with
      | some n => if (n : Int) ≤ 9223372036854775808 then some (-(n : Int)) else none
      | none => none
    else if c = '+' then
      match digitsToNat cs with
      | some n => if (n : Int) ≤ i64max then some ((n : Int)) else none
      | none => none
    else
      match digitsToNat (c :: cs) with
      | some n => if (n : Int) ≤ i64max then some ((n : Int)) else none
      | none => none

/-- Longest prefix of characters satisfying `p`, together with the rest. -/
def spanChars (p : Char → Bool) : List Char → (List Char × List Char)
  | [] => ([], [])
  | c :: cs =>
    if p c then
      let t := spanChars p cs
      (c :: t.1, t.2)
    else ([], c :: cs)

/-- Modelled from the spec: lexical layer of the missing tiny_lang.pest
grammar (spec §4.1): maximal-munch digit runs become `number` tokens,
lowercase-letter runs become `identifier` tokens, the seven punctuation
characters are single tokens, whitespace is skipped, and any other
character is a lexical (pest) error.  The fuel argument only bounds the
recursion depth; every step consumes at least one character, so
`length + 1` fuel always suffices. -/
def tokenizeChars : Nat → List Char → Option (List Tok)
  | 0, _ => none
  | _ + 1, [] => some []
  | fuel + 1, c :: cs =>
    if isWsChar c then tokenizeChars fuel cs
    else if isDigitChar c then
      let t := spanChars isDigitChar (c :: cs)
      match tokenizeChars fuel t.2 with
      | some ts => some (.num (String.mk t.1) :: ts)
      | none => none
    else if isLowerChar c then
      let t := spanChars isLowerChar (c :: cs)
      match tokenizeChars fuel t.2 with
      | some ts => some (.ident (String.mk t.1) :: ts)
      | none => none
    else if c = '+' then (tokenizeChars fuel cs).map (Tok.plus :: ·)
    else if c = '-' then (tokenizeChars fuel cs).map (Tok.minus :: ·)
    else if c = '*' then (tokenizeChars fuel cs).map (Tok.star :: ·)
    else if c = '/' then (tokenizeChars fuel cs).map (Tok.slash :: ·)
    else if c = '=' then (tokenizeChars fuel cs).map (Tok.eq :: ·)
    else if c = '(' then (tokenizeChars fuel cs).map (Tok.lparen :: ·)
    else if c = ')' then (tokenizeChars fuel cs).map (Tok.rparen :: ·)
    else if c = ';' then (tokenizeChars fuel cs).map (Tok.semi :: ·)
    else none

/-- Modelled from the spec: tokenisation of a source string. -/
def tokenize (input : String) : Option (List Tok) :=
  tokenizeChars (input.data.length + 1) input.data

mutual
/-- Modelled from the spec: the pest engine's PEG match of the grammar
rules `expression`, `term` and `factor` (spec §4.1), producing the pair
tree the Rust AST-construction functions consume.  Ordered choice commits
to the first matching alternative; the starred operator tails are greedy.
The fuel bounds recursion depth and loop length; `peg_program` passes fuel
ample for any token list. -/
def peg_factor : Nat → List Tok → Option (Pair × List Tok)
  | 0, _ => none
  | _ + 1, .num s :: rest =>
    some (.mk .factor "" [.mk .number s []], rest)
  | _ + 1, .ident s :: rest =>
    some (.mk .factor "" [.mk .identifier s []], rest)
  | fuel + 1, .lparen :: rest =>
    match peg_expression fuel rest with
    | some (e, .rparen :: rest2) => some (.mk .factor "" [e], rest2)
    | _ => none
  | _ + 1, _ => none

def peg_term : Nat → List Tok → Option (Pair × List Tok)
  | 0, _ => none
  | fuel + 1, toks =>
    match peg_factor fuel toks with
    | none => none
    | some (f, rest) =>
      let t := peg_term_tail fuel rest
      some (.mk .term "" (f :: t.1), t.2)

def peg_term_tail : Nat → List Tok → (List Pair × List Tok)
  | 0, toks => ([], toks)
  | fuel + 1, .star :: rest =>
    match peg_factor fuel rest with
    | some (f, rest2) =>
      let t := peg_term_tail fuel rest2
      (.mk .mul_op "*" [] :: f :: t.1, t.2)
    | none => ([], .star :: rest)
  | fuel + 1, .slash :: rest =>
    match peg_factor fuel rest with
    | some (f, rest2) =>
      let t := peg_term_tail fuel rest2
      (.mk .mul_op "/" [] :: f :: t.1, t.2)
    | none => ([], .slash :: rest)
  | _ + 1, toks => ([], toks)

def peg_expression : Nat → List Tok → Option (Pair × List Tok)
  | 0, _ => none
  | fuel + 1, toks =>
    match peg_term fuel toks with
    | none => none
    | some (t, rest) =>
      let e := peg_expression_tail fuel rest
      some (.mk .expression "" (t :: e.1), e.2)

def peg_expression_tail : Nat → List Tok → (List Pair × List Tok)
  | 0, toks => ([], toks)
  | fuel + 1, .plus :: rest =>
    match peg_term fuel rest with
    | some (t, rest2) =>
      let e := peg_expression_tail fuel rest2
      (.mk .add_op "+" [] :: t :: e.1, e.2)
    | none => ([], .plus :: rest)
  | fuel + 1, .minus :: rest =>
    match peg_term fuel rest with
    | some (t, rest2) =>
      let e := peg_expression_tail fuel rest2
      (.mk .add_op "-" [] :: t :: e.1, e.2)
    | none => ([], .minus :: rest)
  | _ + 1, toks => ([], toks)
end

/-- Modelled from the spec: PEG match of `assignment := identifier "="
expression`. -/
def peg_assignment (fuel : Nat) (toks : List Tok) : Option (Pair × List Tok) :=
  match toks with
  | .ident name :: .eq :: rest =>
    match peg_expression fuel rest with
    | some (e, rest2) =>
      some (.mk .assignment "" [.mk .identifier name [], e], rest2)
    | none => none
  | _ => none

/-- Modelled from the spec: the ordered choice `assignment | expression`
inside `statement`; the choice commits to `assignment` when it matches. -/
def peg_stmt_inner (fuel : Nat) (toks : List Tok) : Option (Pair × List Tok) :=
  match peg_assignment fuel toks with
  | some r => some r
  | none => peg_expression fuel toks

/-- Modelled from the spec: PEG match of `statement := (assignment |
expression) ";"`. -/
def peg_statement (fuel : Nat) (toks : List Tok) : Option (Pair × List Tok) :=
  match peg_stmt_inner fuel toks with
  | some (inner, .semi :: rest) => some (.mk .statement "" [inner], rest)
  | _ => none

/-- Modelled from the spec: the starred statement list of `program :=
statement*`. -/
def peg_program_stmts : Nat → List Tok → (List Pair × List Tok)
  | 0, toks => ([], toks)
  | fuel + 1, toks =>
    match peg_statement fuel toks with
    | some (s, rest) =>
      let t := peg_program_stmts fuel rest
      (s :: t.1, t.2)
    | none => ([], toks)

/-- Modelled from the spec: the pest parse of the root rule `program`,
requiring the whole input to match (spec §4.1: malformed input is a
structural parse error).  Fuel `4 * length + 8` always exceeds the needed
recursion depth (at most a small constant plus three levels per input
token). -/
def peg_program (toks : List Tok) : Option (List Pair) :=
  match peg_program_stmts (4 * toks.length + 8) toks with
  | (stmts, []) => some [.mk .program "" stmts]
  | _ => none

/-- Modelled from the spec: `TinyLangParser::parse(Rule::program, input)` —
tokenisation followed by the PEG match of the grammar. -/
def pest_parse (input : String) : Option (List Pair) :=
  match tokenize input with
  | none => none
  | some toks => peg_program toks

mutual
/-- Embeds `parse_expression`, `parse_term` and `parse_factor` from
src/src/parser/mod.rs together with their operator-folding `while` loops
(`parse_expression_fold`, `parse_term_fold`).  The fuel argument bounds the
recursion depth; every call site passes fuel exceeding the pair-tree size,
so the fuel-exhaustion branches never fire on pest-produced trees. -/
def parse_expression : Nat → Pair → Except ParseError ASTNode
  | 0, _ => .error (.UnexpectedEnd .term)
  | fuel + 1, p =>
    match p.inner with
    | [] => .error (.UnexpectedEnd .term)
    | first :: rest =>
      match parse_term fuel first with
      | .error e => .error e
      | .ok n => parse_expression_fold fuel n rest

def parse_expression_fold : Nat → ASTNode → List Pair → Except ParseError ASTNode
  | 0, _, _ => .error (.UnexpectedEnd .term)
  | _ + 1, acc, [] => .ok acc
  | _ + 1, _, [_] => .error (.UnexpectedEnd .term)
  | fuel + 1, acc, op :: t :: rest =>
    match op.rule with
    | .add_op =>
      match op.str with
      | "+" =>
        match parse_term fuel t with
        | .error e => .error e
        | .ok tn => parse_expression_fold fuel (.Add acc tn) rest
      | "-" =>
        match parse_term fuel t with
        | .error e => .error e
        | .ok tn => parse_expression_fold fuel (.Sub acc tn) rest
      | _ => .error (.UnexpectedRule .add_op)
    | r => .error (.UnexpectedRule r)

def parse_term : Nat → Pair → Except ParseError ASTNode
  | 0, _ => .error (.UnexpectedEnd .factor)
  | fuel + 1, p =>
    match p.inner with
    | [] => .error (.UnexpectedEnd .factor)
    | first :: rest =>
      match parse_factor fuel first with
      | .error e => .error e
      | .ok n => parse_term_fold fuel n rest

def parse_term_fold : Nat → ASTNode → List Pair → Except ParseError ASTNode
  | 0, _, _ => .error (.UnexpectedEnd .factor)
  | _ + 1, acc, [] => .ok acc
  | _ + 1, _, [_] => .error (.UnexpectedEnd .factor)
  | fuel + 1, acc, op :: t :: rest =>
    match op.rule with
    | .mul_op =>
      match op.str with
      | "*" =>
        match parse_factor fuel t with
        | .error e => .error e
        | .ok tn => parse_term_fold fuel (.Mul acc tn) rest
      | "/" =>
        match parse_factor fuel t with
        | .error e => .error e
        | .ok tn => parse_term_fold fuel (.Div acc tn) rest
      | _ => .error (.UnexpectedRule .mul_op)
    | r => .error (.UnexpectedRule r)

def parse_factor : Nat → Pair → Except ParseError ASTNode
  | 0, _ => .error (.UnexpectedEnd .number)
  | fuel + 1, p =>
    match p.inner with
    | [] => .error (.UnexpectedEnd .number)
    | inner :: _ =>
      match inner.rule with
      | .number =>
        match parse_i64 inner.str with
        | some n => .ok (.Number n)
        | none => .error (.InvalidNumber inner.str)
      | .identifier => .ok (.Identifier inner.str)
      | .expression => parse_expression fuel inner
      | r => .error (.UnexpectedRule r)
end

/-- Embeds `parse_assignment` from src/src/parser/mod.rs. -/
def parse_assignment (fuel : Nat) (p : Pair) : Except ParseError ASTNode :=
  match p.inner with
  | [] => .error (.UnexpectedEnd .identifier)
  | name_pair :: rest =>
    match rest with
    | [] => .error (.UnexpectedEnd .expression)
    | expr_pair :: _ =>
      match parse_expression fuel expr_pair with
      | .error e => .error e
      | .ok value => .ok (.Assignment name_pair.str value)

/-- Embeds `parse_statement` from src/src/parser/mod.rs. -/
def parse_statement (fuel : Nat) (p : Pair) : Except ParseError ASTNode :=
  match p.inner with
  | [] => .error (.UnexpectedEnd .statement)
  | stmt :: _ =>
    match stmt.rule with
    | .assignment => parse_assignment fuel stmt
    | .expression => parse_expression fuel stmt
    | r => .error (.UnexpectedRule r)

/-- Embeds the inner statement loop of `parse_program` from
src/src/parser/mod.rs: statements are parsed in order, the first parse
error aborts the whole parse. -/
def parse_statement_list (fuel : Nat) : List Pair → Except ParseError (List ASTNode)
  | [] => .ok []
  | p :: rest =>
    if p.rule = .statement then
      match parse_statement fuel p with
      | .error e => .error e
      | .ok n =>
        match parse_statement_list fuel rest with
        | .error e => .error e
        | .ok ns => .ok (n :: ns)
    else parse_statement_list fuel rest

/-- Embeds the outer loop of `parse_program` from src/src/parser/mod.rs,
which filters the top-level pairs for `Rule::program`. -/
def parse_top_list (fuel : Nat) : List Pair → Except ParseError (List ASTNode)
  | [] => .ok []
  | p :: rest =>
    if p.rule = .program then
      match parse_statement_list fuel p.inner with
      | .error e => .error e
      | .ok ns =>
        match parse_top_list fuel rest with
        | .error e => .error e
        | .ok ms => .ok (ns ++ ms)
    else parse_top_list fuel rest

/-- Embeds `parse_program` from src/src/parser/mod.rs: the pest parse of
the whole input followed by AST construction over the produced pairs. -/
def parse_program (input : String) : Except ParseError (List ASTNode) :=
  match pest_parse input with
  | none => .error .PestError
  | some pairs => parse_top_list (2 * pairListSize pairs + 2) pairs

/-- AST construction applied to an explicit token list (the composition of
the grammar match and the source's pair traversal); used to state
token-shape properties. -/
def parse_tokens (toks : List Tok) : Except ParseError (List ASTNode) :=
  match peg_program toks with
  | none => .error .PestError
  | some pairs => parse_top_list (2 * pairListSize pairs + 2) pairs

/-- The variable environment: `HashMap<String, i64>` modelled as an
association list with unique keys; `envInsert` overwrites in place, so
evaluation is deterministic and the list order is stable. -/
def Env : Type := List (String × Int)

instance : DecidableEq Env := by
  unfold Env
  infer_instance

/-- Lookup in the environment, modelling `HashMap::get`. -/
def envGet : Env → String → Option Int
  | [], _ => none
  | (k, v) :: rest, name => if k = name then some v else envGet rest name

/-- Insertion into the environment, modelling `HashMap::insert` (the value
of an existing key is overwritten). -/
def envInsert : Env → String → Int → Env
  | [], name, v => [(name, v)]
  | (k, w) :: rest, name, v =>
    if k = name then (k, v) :: rest else (k, w) :: envInsert rest name v

namespace Interpreter

/-- Outcome of `Interpreter::eval_node`: an `i64` value together with the
interpreter's variable state, an `EvalError` with the state at the moment
of failure, or an abort of the process (`panicked` — Rust's behaviour on
`i64::MIN / -1`, which panics in every build profile). -/
inductive EvalResult where
  | ok (v : Int) (env : Env)
  | err (e : EvalError) (env : Env)
  | panicked
deriving DecidableEq

/-- Outcome of `Interpreter::eval`: `Result<(), EvalError>` together with
the interpreter's variable state, or a process abort. -/
inductive EvalOutcome where
  | ok (env : Env)
  | err (e : EvalError) (env : Env)
  | panicked
deriving DecidableEq

/-- Embeds `Interpreter::eval_node` from src/src/parser/mod.rs.  The
mutable `self.variables` is threaded explicitly.  `+`, `-`, `*` wrap
(release-profile semantics, made explicit by `wrap64`); `/` first checks
the source's `right_val == 0` guard, then aborts on the unguarded
`i64::MIN / -1` overflow, and otherwise truncates toward zero
(`Int.tdiv`). -/
def eval_node : ASTNode → Env → EvalResult
  | .Number n, env => .ok n env
  | .Identifier name, env =>
    match envGet env name with
    | some v => .ok v env
    | none => .err (.UndefinedVariable name) env
  | .Assignment name value, env =>
    match eval_node value env with
    | .ok v env1 => .ok v (envInsert env1 name v)
    | .err e env1 => .err e env1
    | .panicked => .panicked
  | .Add l r, env =>
    match eval_node l env with
    | .ok lv env1 =>
      match eval_node r env1 with
      | .ok rv env2 => .ok (wrap64 (lv + rv)) env2
      | .err e env2 => .err e env2
      | .panicked => .panicked
    | .err e env1 => .err e env1
    | .panicked => .panicked
  | .Sub l r, env =>
    match eval_node l env with
    | .ok lv env1 =>
      match eval_node r env1 with
      | .ok rv env2 => .ok (wrap64 (lv - rv)) env2
      | .err e env2 => .err e env2
      | .panicked => .panicked
    | .err e env1 => .err e env1
    | .panicked => .panicked
  | .Mul l r, env =>
    match eval_node l env with
    | .ok lv env1 =>
      match eval_node r env1 with
      | .ok rv env2 => .ok (wrap64 (lv * rv)) env2
      | .err e env2 => .err e env2
      | .panicked => .panicked
    | .err e env1 => .err e env1
    | .panicked => .panicked
  | .Div l r, env =>
    match eval_node l env with
    | .ok lv env1 =>
      match eval_node r env1 with
      | .ok rv env2 =>
        if rv = 0 then .err .DivisionByZero env2
        else if lv = i64min ∧ rv = -1 then .panicked
        else .ok (lv.tdiv rv) env2
      | .err e env2 => .err e env2
      | .panicked => .panicked
    | .err e env1 => .err e env1
    | .panicked => .panicked

/-- Embeds `Interpreter::eval` from src/src/parser/mod.rs: statements are
evaluated in order; the `?` operator propagates the first failure. -/
def eval (env : Env) : List ASTNode → EvalOutcome
  | [] => .ok env
  | n :: rest =>
    match eval_node n env with
    | .ok _ env1 => eval env1 rest
    | .err e env1 => .err e env1
    | .panicked => .panicked

end Interpreter

namespace Lib

/-- Outcome of the duplicate `Interpreter::eval_node` of src/src/lib.rs,
whose error type is `String`. -/
inductive EvalResult where
  | ok (v : Int) (env : Env)
  | err (msg : String) (env : Env)
  | panicked
deriving DecidableEq

/-- Outcome of the duplicate `Interpreter::eval` of src/src/lib.rs. -/
inductive EvalOutcome where
  | ok (env : Env)
  | err (msg : String) (env : Env)
  | panicked
deriving DecidableEq

/-- Embeds `Interpreter::eval_node` from src/src/lib.rs (identical to the
mod.rs version except that errors are formatted `String`s). -/
def eval_node : ASTNode → Env → EvalResult
  | .Number n, env => .ok n env
  | .Identifier name, env =>
    match envGet env name with
    | some v => .ok v env
    | none => .err ("Undefined variable '" ++ name ++ "'") env
  | .Assignment name value, env =>
    match eval_node value env with
    | .ok v env1 => .ok v (envInsert env1 name v)
    | .err e env1 => .err e env1
    | .panicked => .panicked
  | .Add l r, env =>
    match eval_node l env with
    | .ok lv env1 =>
      match eval_node r env1 with
      | .ok rv env2 => .ok (wrap64 (lv + rv)) env2
      | .err e env2 => .err e env2
      | .panicked => .panicked
    | .err e env1 => .err e env1
    | .panicked => .panicked
  | .Sub l r, env =>
    match eval_node l env with
    | .ok lv env1 =>
      match eval_node r env1 with
      | .ok rv env2 => .ok (wrap64 (lv - rv)) env2
      | .err e env2 => .err e env2
      | .panicked => .panicked
    | .err e env1 => .err e env1
    | .panicked => .panicked
  | .Mul l r, env =>
    match eval_node l env with
    | .ok lv env1 =>
      match eval_node r env1 with
      | .ok rv env2 => .ok (wrap64 (lv * rv)) env2
      | .err e env2 => .err e env2
      | .panicked => .panicked
    | .err e env1 => .err e env1
    | .panicked => .panicked
  | .Div l r, env =>
    match eval_node l env with
    | .ok lv env1 =>
      match eval_node r env1 with
      | .ok rv env2 =>
        if rv = 0 then .err "Division by zero" env2
        else if lv = i64min ∧ rv = -1 then .panicked
        else .ok (lv.tdiv rv) env2
      | .err e env2 => .err e env2
      | .panicked => .panicked
    | .err e env1 => .err e env1
    | .panicked => .panicked

/-- Embeds `Interpreter::eval` from src/src/lib.rs. -/
def eval (env : Env) : List ASTNode → EvalOutcome
  | [] => .ok env
  | n :: rest =>
    match eval_node n env with
    | .ok _ env1 => eval env1 rest
    | .err e env1 => .err e env1
    | .panicked => .panicked

mutual
/-- Embeds `parse_expression`, `parse_term`, `parse_factor` and their
folding loops from src/src/lib.rs — the duplicate of the mod.rs
implementation (it consumes the same pest pair trees, both Rust files
deriving their parser from the single grammar file tiny_lang.pest). -/
def parse_expression : Nat → Pair → Except ParseError ASTNode
  | 0, _ => .error (.UnexpectedEnd .term)
  | fuel + 1, p =>
    match p.inner with
    | [] => .error (.UnexpectedEnd .term)
    | first :: rest =>
      match parse_term fuel first with
      | .error e => .error e
      | .ok n => parse_expression_fold fuel n rest

def parse_expression_fold : Nat → ASTNode → List Pair → Except ParseError ASTNode
  | 0, _, _ => .error (.UnexpectedEnd .term)
  | _ + 1, acc, [] => .ok acc
  | _ + 1, _, [_] => .error (.UnexpectedEnd .term)
  | fuel + 1, acc, op :: t :: rest =>
    match op.rule with
    | .add_op =>
      match op.str with
      | "+" =>
        match parse_term fuel t with
        | .error e => .error e
        | .ok tn => parse_expression_fold fuel (.Add acc tn) rest
      | "-" =>
        match parse_term fuel t with
        | .error e => .error e
        | .ok tn => parse_expression_fold fuel (.Sub acc tn) rest
      | _ => .error (.UnexpectedRule .add_op)
    | r => .error (.UnexpectedRule r)

def parse_term : Nat → Pair → Except ParseError ASTNode
  | 0, _ => .error (.UnexpectedEnd .factor)
  | fuel + 1, p =>
    match p.inner with
    | [] => .error (.UnexpectedEnd .factor)
    | first :: rest =>
      match parse_factor fuel first with
      | .error e => .error e
      | .ok n => parse_term_fold fuel n rest

def parse_term_fold : Nat → ASTNode → List Pair → Except ParseError ASTNode
  | 0, _, _ => .error (.UnexpectedEnd .factor)
  | _ + 1, acc, [] => .ok acc
  | _ + 1, _, [_] => .error (.UnexpectedEnd .factor)
  | fuel + 1, acc, op :: t :: rest =>
    match op.rule with
    | .mul_op =>
      match op.str with
      | "*" =>
        match parse_factor fuel t with
        | .error e => .error e
        | .ok tn => parse_term_fold fuel (.Mul acc tn) rest
      | "/" =>
        match parse_factor fuel t with
        | .error e => .error e
        | .ok tn => parse_term_fold fuel (.Div acc tn) rest
      | _ => .error (.UnexpectedRule .mul_op)
    | r => .error (.UnexpectedRule r)

def parse_factor : Nat → Pair → Except ParseError ASTNode
  | 0, _ => .error (.UnexpectedEnd .number)
  | fuel + 1, p =>
    match p.inner with
    | [] => .error (.UnexpectedEnd .number)
    | inner :: _ =>
      match inner.rule with
      | .number =>
        match parse_i64 inner.str with
        | some n => .ok (.Number n)
        | none => .error (.InvalidNumber inner.str)
      | .identifier => .ok (.Identifier inner.str)
      | .expression => parse_expression fuel inner
      | r => .error (.UnexpectedRule r)
end

/-- Embeds `parse_assignment` from src/src/lib.rs. -/
def parse_assignment (fuel : Nat) (p : Pair) : Except ParseError ASTNode :=
  match p.inner with
  | [] => .error (.UnexpectedEnd .identifier)
  | name_pair :: rest =>
    match rest with
    | [] => .error (.UnexpectedEnd .expression)
    | expr_pair :: _ =>
      match parse_expression fuel expr_pair with
      | .error e => .error e
      | .ok value => .ok (.Assignment name_pair.str value)

/-- Embeds `parse_statement` from src/src/lib.rs. -/
def parse_statement (fuel : Nat) (p : Pair) : Except ParseError ASTNode :=
  match p.inner with
  | [] => .error (.UnexpectedEnd .statement)
  | stmt :: _ =>
    match stmt.rule with
    | .assignment => parse_assignment fuel stmt
    | .expression => parse_expression fuel stmt
    | r => .error (.UnexpectedRule r)

/-- Embeds the inner statement loop of `parse_program` from
src/src/lib.rs. -/
def parse_statement_list (fuel : Nat) : List Pair → Except ParseError (List ASTNode)
  | [] => .ok []
  | p :: rest =>
    if p.rule = .statement then
      match parse_statement fuel p with
      | .error e => .error e
      | .ok n =>
        match parse_statement_list fuel rest with
        | .error e => .error e
        | .ok ns => .ok (n :: ns)
    else parse_statement_list fuel rest

/-- Embeds the outer loop of `parse_program` from src/src/lib.rs. -/
def parse_top_list (fuel : Nat) : List Pair → Except ParseError (List ASTNode)
  | [] => .ok []
  | p :: rest =>
    if p.rule = .program then
      match parse_statement_list fuel p.inner with
      | .error e => .error e
      | .ok ns =>
        match parse_top_list fuel rest with
        | .error e => .error e
        | .ok ms => .ok (ns ++ ms)
    else parse_top_list fuel rest

/-- Embeds `parse_program` from src/src/lib.rs (both Rust files parse with
the same derived pest parser over the single grammar file). -/
def parse_program (input : String) : Except ParseError (List ASTNode) :=
  match pest_parse input with
  | none => .error .PestError
  | some pairs => parse_top_list (2 * pairListSize pairs + 2) pairs

end Lib

/-- Rendering of mod.rs `EvalError` values as the strings lib.rs produces
for the corresponding failures (also the thiserror display strings of
`EvalError`). -/
def errToString : EvalError → String
  | .UndefinedVariable name => "Undefined variable '" ++ name ++ "'"
  | .DivisionByZero => "Division by zero"
  | .RuntimeError msg => "Runtime error: " ++ msg

/-- Translation of a mod.rs node outcome into the lib.rs form. -/
def toLibResult : Interpreter.EvalResult → Lib.EvalResult
  | .ok v env => .ok v env
  | .err e env => .err (errToString e) env
  | .panicked => .panicked

/-- Translation of a mod.rs sequence outcome into the lib.rs form. -/
def toLibOutcome : Interpreter.EvalOutcome → Lib.EvalOutcome
  | .ok env => .ok env
  | .err e env => .err (errToString e) env
  | .panicked => .panicked

/-- Whether an AST contains no `Assignment` node at all. -/
def exprNoAssign : ASTNode → Bool
  | .Number _ => true
  | .Identifier _ => true
  | .Assignment _ _ => false
  | .Add l r => exprNoAssign l && exprNoAssign r
  | .Sub l r => exprNoAssign l && exprNoAssign r
  | .Mul l r => exprNoAssign l && exprNoAssign r
  | .Div l r => exprNoAssign l && exprNoAssign r

/-- Whether an AST has `Assignment` nodes at most at its root: either an
`Assignment` whose value sub-tree is assignment-free, or an
assignment-free expression. -/
def stmtTopAssignOnly : ASTNode → Bool
  | .Assignment _ value => exprNoAssign value
  | n => exprNoAssign n

deriving instance DecidableEq for Except

/-- Whether an evaluation outcome carries the same environment it started
from (process aborts carry no observable environment). -/
def envPreserved : Interpreter.EvalResult → Env → Prop
  | .ok _ env1, env => env1 = env
  | .err _ env1, env => env1 = env
  | .panicked, _ => True

theorem eval_node_noAssign (n : ASTNode) :
    ∀ env : Env, exprNoAssign n = true →
      envPreserved (Interpreter.eval_node n env) env := by
  induction n with
  | Number k =>
    intro env _
    simp [Interpreter.eval_node, envPreserved]
  | Identifier name =>
    intro env _
    simp only [Interpreter.eval_node]
    cases envGet env name <;> simp [envPreserved]
  | Assignment name value ih =>
    intro env h
    simp [exprNoAssign] at h
  | Add l r ihl ihr =>
    intro env h
    simp only [exprNoAssign, Bool.and_eq_true] at h
    simp only [Interpreter.eval_node]
    split
    · rename_i lv env1 el
      have p1 := ihl env h.1
      rw [el] at p1
      simp only [envPreserved] at p1
      rw [p1]
      split
      · rename_i rv env2 er
        have p2 := ihr env h.2
        rw [er] at p2
        simp only [envPreserved] at p2
        simpa [envPreserved] using p2
      · rename_i e env2 er
        have p2 := ihr env h.2
        rw [er] at p2
        simp only [envPreserved] at p2
        simpa [envPreserved] using p2
      · simp [envPreserved]
    · rename_i e env1 el
      have p1 := ihl env h.1
      rw [el] at p1
      simp only [envPreserved] at p1
      simpa [envPreserved] using p1
    · simp [envPreserved]
  | Sub l r ihl ihr =>
    intro env h
    simp only [exprNoAssign, Bool.and_eq_true] at h
    simp only [Interpreter.eval_node]
    split
    · rename_i lv env1 el
      have p1 := ihl env h.1
      rw [el] at p1
      simp only [envPreserved] at p1
      rw [p1]
      split
      · rename_i rv env2 er
        have p2 := ihr env h.2
        rw [er] at p2
        simp only [envPreserved] at p2
        simpa [envPreserved] using p2
      · rename_i e env2 er
        have p2 := ihr env h.2
        rw [er] at p2
        simp only [envPreserved] at p2
        simpa [envPreserved] using p2
      · simp [envPreserved]
    · rename_i e env1 el
      have p1 := ihl env h.1
      rw [el] at p1
      simp only [envPreserved] at p1
      simpa [envPreserved] using p1
    · simp [envPreserved]
  | Mul l r ihl ihr =>
    intro env h
    simp only [exprNoAssign, Bool.and_eq_true] at h
    simp only [Interpreter.eval_node]
    split
    · rename_i lv env1 el
      have p1 := ihl env h.1
      rw [el] at p1
      simp only [envPreserved] at p1
      rw [p1]
      split
      · rename_i rv env2 er
        have p2 := ihr env h.2
        rw [er] at p2
        simp only [envPreserved] at p2
        simpa [envPreserved] using p2
      · rename_i e env2 er
        have p2 := ihr env h.2
        rw [er] at p2
        simp only [envPreserved] at p2
        simpa [envPreserved] using p2
      · simp [envPreserved]
    · rename_i e env1 el
      have p1 := ihl env h.1
      rw [el] at p1
      simp only [envPreserved] at p1
      simpa [envPreserved] using p1
    · simp [envPreserved]
  | Div l r ihl ihr =>
    intro env h
    simp only [exprNoAssign, Bool.and_eq_true] at h
    simp only [Interpreter.eval_node]
    split
    · rename_i lv env1 el
      have p1 := ihl env h.1
      rw [el] at p1
      simp only [envPreserved] at p1
      rw [p1]
      split
      · rename_i rv env2 er
        have p2 := ihr env h.2
        rw [er] at p2
        simp only [envPreserved] at p2
        split
        · simpa [envPreserved] using p2
        · split
          · simp [envPreserved]
          · simpa [envPreserved] using p2
      · rename_i e env2 er
        have p2 := ihr env h.2
        rw [er] at p2
        simp only [envPreserved] at p2
        simpa [envPreserved] using p2
      · simp [envPreserved]
    · rename_i e env1 el
      have p1 := ihl env h.1
      rw [el] at p1
      simp only [envPreserved] at p1
      simpa [envPreserved] using p1
    · simp [envPreserved]

theorem eval_append_ok (xs : List ASTNode) :
    ∀ (env env1 : Env), Interpreter.eval env xs = .ok env1 →
      ∀ ys, Interpreter.eval env (xs ++ ys) = Interpreter.eval env1 ys := by
  induction xs with
  | nil =>
    intro env env1 h ys
    simp only [Interpreter.eval] at h
    cases h
    simp
  | cons x xs ih =>
    intro env env1 h ys
    simp only [Interpreter.eval] at h
    simp only [List.cons_append, Interpreter.eval]
    cases ex : Interpreter.eval_node x env with
    | ok v e1 =>
      rw [ex] at h
      exact ih e1 env1 h ys
    | err e e1 => rw [ex] at h; cases h
    | panicked => rw [ex] at h; cases h

/-- Claim C2 (amended): evaluating `Div` first evaluates the left then the
right operand; if the right operand evaluates to exactly 0, evaluation
fails with `DivisionByZero` without performing any native division; when
the right operand is nonzero and the operands are not `(i64::MIN, -1)`,
the result is integer division truncating toward zero (at `(i64::MIN, -1)`
the native division overflows and the process panics, see the
counterexample).  Consequently evaluating `"result = 5 / 0;"` fails with
`DivisionByZero` and `result` is never bound in the environment. -/
theorem claim_C2_div_semantics (l r : ASTNode) (env env1 env2 : Env) (lv rv : Int)
    (hl : Interpreter.eval_node l env = .ok lv env1)
    (hr : Interpreter.eval_node r env1 = .ok rv env2) :
    (rv = 0 → Interpreter.eval_node (.Div l r) env = .err .DivisionByZero env2)
    ∧ (rv ≠ 0 → ¬(lv = i64min ∧ rv = -1) →
        Interpreter.eval_node (.Div l r) env = .ok (lv.tdiv rv) env2)
    ∧ parse_program "result = 5 / 0;" =
        .ok [.Assignment "result" (.Div (.Number 5) (.Number 0))]
    ∧ Interpreter.eval [] [.Assignment "result" (.Div (.Number 5) (.Number 0))] =
        .err .DivisionByZero []
    ∧ envGet [] "result" = none := by
  refine ⟨?_, ?_, by decide, by decide, rfl⟩
  · intro hz
    simp [Interpreter.eval_node, hl, hr, hz]
  · intro hz hm
    simp only [Interpreter.eval_node, hl, hr]
    rw [if_neg hz, if_neg hm]

/-- Witness for C2: the division-by-zero path at the concrete division
`5 / 0` in the empty environment. -/
theorem claim_C2_div_semantics_witness :
    Interpreter.eval_node (.Div (.Number 5) (.Number 0)) [] =
      .err .DivisionByZero [] :=
  (claim_C2_div_semantics (.Number 5) (.Number 0) [] [] [] 5 0 rfl rfl).1 rfl

/-- Counterexample for C2 as stated: at `Div(Number(i64::MIN), Number(-1))`
the right operand is nonzero, yet the result is not the truncated quotient
(which does not fit in i64) — the process panics on the unguarded native
division overflow. -/
theorem claim_C2_counterexample :
    Interpreter.eval_node (.Div (.Number i64min) (.Number (-1))) [] = .panicked
    ∧ Interpreter.EvalResult.panicked ≠ .ok (i64min.tdiv (-1)) [] := by
  refine ⟨by decide, by decide⟩

/-- Claim C3 (amended): `Interpreter::eval` stops at the first statement
whose evaluation fails and never evaluates any later statement (the
result does not depend on the statements after the failing one); the
environment at the failure is the one produced by the failing statement,
which — whenever the failing statement has assignments at most at its
root, as every parser-produced statement does — is exactly the
environment after the successful prefix, i.e. exactly the assignments
made strictly before the failing statement.  (For hand-built ASTs with
assignments nested inside operands the failing statement itself may
contribute assignments, see the counterexample.) -/
theorem claim_C3_first_failure (env env1 env2 : Env) (xs ys : List ASTNode)
    (y : ASTNode) (e : EvalError)
    (hxs : Interpreter.eval env xs = .ok env1)
    (hy : Interpreter.eval_node y env1 = .err e env2) :
    Interpreter.eval env (xs ++ y :: ys) = .err e env2
    ∧ (stmtTopAssignOnly y = true → env2 = env1) := by
  constructor
  · rw [eval_append_ok xs env env1 hxs (y :: ys)]
    simp [Interpreter.eval, hy]
  · intro hok
    cases y with
    | Assignment name value =>
      simp only [stmtTopAssignOnly] at hok
      simp only [Interpreter.eval_node] at hy
      cases hval : Interpreter.eval_node value env1 with
      | ok v env3 => rw [hval] at hy; cases hy
      | err e2 env3 =>
        rw [hval] at hy
        cases hy
        have p := eval_node_noAssign value env1 hok
        rw [hval] at p
        simpa [envPreserved] using p
      | panicked => rw [hval] at hy; cases hy
    | Number k =>
      have p := eval_node_noAssign (.Number k) env1 (by simp [exprNoAssign])
      rw [hy] at p
      simpa [envPreserved] using p
    | Identifier name =>
      have p := eval_node_noAssign (.Identifier name) env1 (by simp [exprNoAssign])
      rw [hy] at p
      simpa [envPreserved] using p
    | Add l r =>
      have p := eval_node_noAssign (.Add l r) env1 (by simpa [stmtTopAssignOnly] using hok)
      rw [hy] at p
      simpa [envPreserved] using p
    | Sub l r =>
      have p := eval_node_noAssign (.Sub l r) env1 (by simpa [stmtTopAssignOnly] using hok)
      rw [hy] at p
      simpa [envPreserved] using p
    | Mul l r =>
      have p := eval_node_noAssign (.Mul l r) env1 (by simpa [stmtTopAssignOnly] using hok)
      rw [hy] at p
      simpa [envPreserved] using p
    | Div l r =>
      have p := eval_node_noAssign (.Div l r) env1 (by simpa [stmtTopAssignOnly] using hok)
      rw [hy] at p
      simpa [envPreserved] using p

/-- Witness for C3: the sequence `a = 1; b; 5;` fails at the undefined
variable `b`; the statement `5` is never evaluated and the environment is
exactly the prefix assignment. -/
theorem claim_C3_first_failure_witness :
    Interpreter.eval [] [.Assignment "a" (.Number 1), .Identifier "b", .Number 5] =
      .err (.UndefinedVariable "b") [("a", 1)]
    ∧ (stmtTopAssignOnly (.Identifier "b") = true → [("a", 1)] = ([("a", 1)] : Env)) :=
  claim_C3_first_failure [] [("a", 1)] [("a", 1)] [.Assignment "a" (.Number 1)]
    [.Number 5] (.Identifier "b") (.UndefinedVariable "b") rfl rfl

/-- Counterexample for C3 as stated over every sequence of statement ASTs:
for the single-statement sequence `[Add(Assignment("x", 1), Div(1, 0))]`
the failing statement is the first one, so the claim says the environment
after the failure contains no assignments at all; but the code commits the
nested assignment `x = 1` before failing, leaving `x` bound. -/
theorem claim_C3_counterexample :
    Interpreter.eval []
        [.Add (.Assignment "x" (.Number 1)) (.Div (.Number 1) (.Number 0))] =
      .err .DivisionByZero [("x", 1)]
    ∧ ([("x", 1)] : Env) ≠ [] := by
  refine ⟨by decide, by decide⟩

/-- Claim C4: the claim states that evaluation never terminates the
process for any AST and any i64 operand values; the code violates it: the
division guard checks only for a zero divisor, so `i64::MIN / -1`
(reachable from the parsable program below, since `0 - 9223372036854775807
- 1` evaluates to `i64::MIN` without overflow) hits Rust's always-armed
signed-division overflow check and panics in every build profile. -/
theorem claim_C4_overflow_panic :
    parse_program "a = 0 - 9223372036854775807 - 1; b = a / (0 - 1);" =
      .ok [.Assignment "a" (.Sub (.Sub (.Number 0) (.Number 9223372036854775807)) (.Number 1)),
           .Assignment "b" (.Div (.Identifier "a") (.Sub (.Number 0) (.Number 1)))]
    ∧ Interpreter.eval []
        [.Assignment "a" (.Sub (.Sub (.Number 0) (.Number 9223372036854775807)) (.Number 1)),
         .Assignment "b" (.Div (.Identifier "a") (.Sub (.Number 0) (.Number 1)))] =
        .panicked := by
  refine ⟨by decide, by decide⟩

/-- Claim C6: a parenthesized sub-expression overrides operator
precedence: `"(2 + 3) * 4;"` parses to `Mul(Add(2, 3), 4)` and that
statement evaluates to 20. -/
theorem claim_C6_parens :
    parse_program "(2 + 3) * 4;" =
      .ok [.Mul (.Add (.Number 2) (.Number 3)) (.Number 4)]
    ∧ Interpreter.eval_node (.Mul (.Add (.Number 2) (.Number 3)) (.Number 4)) [] =
        .ok 20 [] := by
  refine ⟨by decide, by decide⟩

/-- Claim C7: evaluating `Identifier(name)` returns the environment's
value for `name` (leaving the environment unchanged), and fails with
`UndefinedVariable(name)` when `name` is absent, substituting no default;
in particular `"y + 1;"` parses to `Add(Identifier("y"), Number(1))`, and
evaluating it against the empty environment fails with
`UndefinedVariable("y")` leaving the environment empty. -/
theorem claim_C7_identifier_lookup (name : String) (env : Env) :
    (∀ v, envGet env name = some v →
      Interpreter.eval_node (.Identifier name) env = .ok v env)
    ∧ (envGet env name = none →
      Interpreter.eval_node (.Identifier name) env = .err (.UndefinedVariable name) env)
    ∧ parse_program "y + 1;" = .ok [.Add (.Identifier "y") (.Number 1)]
    ∧ Interpreter.eval [] [.Add (.Identifier "y") (.Number 1)] =
        .err (.UndefinedVariable "y") [] := by
  refine ⟨?_, ?_, by decide, by decide⟩
  · intro v h
    simp [Interpreter.eval_node, h]
  · intro h
    simp [Interpreter.eval_node, h]

/-- Witness for C7: lookup of `y` in the singleton environment `{y ↦ 7}`
returns 7, and lookup of `y` in the empty environment fails. -/
theorem claim_C7_identifier_lookup_witness :
    Interpreter.eval_node (.Identifier "y") [("y", 7)] = .ok 7 [("y", 7)]
    ∧ Interpreter.eval_node (.Identifier "y") [] =
        .err (.UndefinedVariable "y") [] :=
  ⟨(claim_C7_identifier_lookup "y" [("y", 7)]).1 7 rfl,
   (claim_C7_identifier_lookup "y" []).2.1 rfl⟩

/-- Claim C1: for every parsed input of the shape `a op1 b op2 c;` with
`op1 ∈ {+,-}` and `op2 ∈ {*,/}`, the parser groups `op2` more tightly than
`op1`.  Stated (i) over whole token-level inputs with identifier atoms,
(ii) over the pest pair tree of that shape for arbitrary successfully
parsed factors (covering numeric literals) at the `parse_expression` level,
and (iii) for the concrete program `"2 + 3 * 4;"`, which parses to
`Add(Number(2), Mul(Number(3), Number(4)))` — never `Mul(Add(..), ..)`. -/
theorem claim_C1_precedence :
    (∀ (a b c : String) (o1 o2 : Tok), o1 = .plus ∨ o1 = .minus → o2 = .star ∨ o2 = .slash →
      parse_tokens [.ident a, o1, .ident b, o2, .ident c, .semi] =
        .ok [(if o1 = .plus then ASTNode.Add else ASTNode.Sub) (.Identifier a)
          ((if o2 = .star then ASTNode.Mul else ASTNode.Div) (.Identifier b) (.Identifier c))])
    ∧ (∀ (f1 f2 f3 : Pair) (a1 a2 a3 : ASTNode) (s1 s2 : String) (F : Nat),
        (∀ g, parse_factor (g + 1) f1 = .ok a1) →
        (∀ g, parse_factor (g + 1) f2 = .ok a2) →
        (∀ g, parse_factor (g + 1) f3 = .ok a3) →
        s1 = "+" ∨ s1 = "-" → s2 = "*" ∨ s2 = "/" →
        parse_expression (F + 5)
          (.mk .expression "" [.mk .term "" [f1], .mk .add_op s1 [],
            .mk .term "" [f2, .mk .mul_op s2 [], f3]]) =
          .ok ((if s1 = "+" then ASTNode.Add else ASTNode.Sub) a1
            ((if s2 = "*" then ASTNode.Mul else ASTNode.Div) a2 a3)))
    ∧ parse_program "2 + 3 * 4;" =
        .ok [.Add (.Number 2) (.Mul (.Number 3) (.Number 4))] := by
  refine ⟨?_, ?_, by decide⟩
  · rintro a b c o1 o2 (rfl | rfl) (rfl | rfl) <;>
      simp [parse_tokens, peg_program, peg_program_stmts, peg_statement, peg_stmt_inner,
        peg_assignment, peg_expression, peg_expression_tail, peg_term, peg_term_tail,
        peg_factor, pairListSize, pairSize, parse_top_list, parse_statement_list,
        parse_statement, parse_expression, parse_expression_fold, parse_term,
        parse_term_fold, parse_factor, Pair.rule, Pair.str, Pair.inner]
  · rintro f1 f2 f3 a1 a2 a3 s1 s2 F h1 h2 h3 (rfl | rfl) (rfl | rfl) <;>
      simp [parse_expression, parse_expression_fold, parse_term, parse_term_fold,
        Pair.rule, Pair.str, Pair.inner, h1, h2, h3]

/-- Witness for C1: the `+`/`*` instance of the token-level shape at the
identifiers `a`, `b`, `c`. -/
theorem claim_C1_precedence_witness :
    parse_tokens [.ident "a", .plus, .ident "b", .star, .ident "c", .semi] =
      .ok [.Add (.Identifier "a") (.Mul (.Identifier "b") (.Identifier "c"))] := by
  have h := claim_C1_precedence.1 "a" "b" "c" .plus .star (Or.inl rfl) (Or.inl rfl)
  simpa using h

/-- Claim C5: operator folding in `parse_expression` and `parse_term` is
left-associative: a chain `a op b op c` with operators of equal precedence
parses as `op(op(a, b), c)`.  Stated (i) at the `parse_expression` level
over the pest pair tree of an additive chain with arbitrary successfully
parsed factors, (ii) at the `parse_term` level for a multiplicative chain,
(iii) over whole token-level inputs with identifier atoms for both
families, and (iv) for the concrete program `"8 - 3 - 2;"`, which parses
as `Sub(Sub(8, 3), 2)` and evaluates to 3, not 7. -/
theorem claim_C5_left_assoc :
    (∀ (f1 f2 f3 : Pair) (a1 a2 a3 : ASTNode) (s1 s2 : String) (F : Nat),
      (∀ g, parse_factor (g + 1) f1 = .ok a1) →
      (∀ g, parse_factor (g + 1) f2 = .ok a2) →
      (∀ g, parse_factor (g + 1) f3 = .ok a3) →
      s1 = "+" ∨ s1 = "-" → s2 = "+" ∨ s2 = "-" →
      parse_expression (F + 5)
        (.mk .expression "" [.mk .term "" [f1], .mk .add_op s1 [],
          .mk .term "" [f2], .mk .add_op s2 [], .mk .term "" [f3]]) =
        .ok ((if s2 = "+" then ASTNode.Add else ASTNode.Sub)
          ((if s1 = "+" then ASTNode.Add else ASTNode.Sub) a1 a2) a3))
    ∧ (∀ (f1 f2 f3 : Pair) (a1 a2 a3 : ASTNode) (s1 s2 : String) (F : Nat),
        (∀ g, parse_factor (g + 1) f1 = .ok a1) →
        (∀ g, parse_factor (g + 1) f2 = .ok a2) →
        (∀ g, parse_factor (g + 1) f3 = .ok a3) →
        s1 = "*" ∨ s1 = "/" → s2 = "*" ∨ s2 = "/" →
        parse_term (F + 4)
          (.mk .term "" [f1, .mk .mul_op s1 [], f2, .mk .mul_op s2 [], f3]) =
          .ok ((if s2 = "*" then ASTNode.Mul else ASTNode.Div)
            ((if s1 = "*" then ASTNode.Mul else ASTNode.Div) a1 a2) a3))
    ∧ (∀ (a b c : String) (o1 o2 : Tok), o1 = .plus ∨ o1 = .minus → o2 = .plus ∨ o2 = .minus →
        parse_tokens [.ident a, o1, .ident b, o2, .ident c, .semi] =
          .ok [(if o2 = .plus then ASTNode.Add else ASTNode.Sub)
            ((if o1 = .plus then ASTNode.Add else ASTNode.Sub) (.Identifier a) (.Identifier b))
            (.Identifier c)])
    ∧ (∀ (a b c : String) (o1 o2 : Tok), o1 = .star ∨ o1 = .slash → o2 = .star ∨ o2 = .slash →
        parse_tokens [.ident a, o1, .ident b, o2, .ident c, .semi] =
          .ok [(if o2 = .star then ASTNode.Mul else ASTNode.Div)
            ((if o1 = .star then ASTNode.Mul else ASTNode.Div) (.Identifier a) (.Identifier b))
            (.Identifier c)])
    ∧ parse_program "8 - 3 - 2;" =
        .ok [.Sub (.Sub (.Number 8) (.Number 3)) (.Number 2)]
    ∧ Interpreter.eval_node (.Sub (.Sub (.Number 8) (.Number 3)) (.Number 2)) [] = .ok 3 []
    ∧ Interpreter.EvalResult.ok 3 [] ≠ .ok 7 [] := by
  refine ⟨?_, ?_, ?_, ?_, by decide, by decide, by decide⟩
  · rintro f1 f2 f3 a1 a2 a3 s1 s2 F h1 h2 h3 (rfl | rfl) (rfl | rfl) <;>
      simp [parse_expression, parse_expression_fold, parse_term, parse_term_fold,
        Pair.rule, Pair.str, Pair.inner, h1, h2, h3]
  · rintro f1 f2 f3 a1 a2 a3 s1 s2 F h1 h2 h3 (rfl | rfl) (rfl | rfl) <;>
      simp [parse_term, parse_term_fold, Pair.rule, Pair.str, Pair.inner, h1, h2, h3]
  · rintro a b c o1 o2 (rfl | rfl) (rfl | rfl) <;>
      simp [parse_tokens, peg_program, peg_program_stmts, peg_statement, peg_stmt_inner,
        peg_assignment, peg_expression, peg_expression_tail, peg_term, peg_term_tail,
        peg_factor, pairListSize, pairSize, parse_top_list, parse_statement_list,
        parse_statement, parse_expression, parse_expression_fold, parse_term,
        parse_term_fold, parse_factor, Pair.rule, Pair.str, Pair.inner]
  · rintro a b c o1 o2 (rfl | rfl) (rfl | rfl) <;>
      simp [parse_tokens, peg_program, peg_program_stmts, peg_statement, peg_stmt_inner,
        peg_assignment, peg_expression, peg_expression_tail, peg_term, peg_term_tail,
        peg_factor, pairListSize, pairSize, parse_top_list, parse_statement_list,
        parse_statement, parse_expression, parse_expression_fold, parse_term,
        parse_term_fold, parse_factor, Pair.rule, Pair.str, Pair.inner]

/-- Witness for C5: the `-`/`-` instance of the token-level additive chain
at the identifiers `a`, `b`, `c`. -/
theorem claim_C5_left_assoc_witness :
    parse_tokens [.ident "a", .minus, .ident "b", .minus, .ident "c", .semi] =
      .ok [.Sub (.Sub (.Identifier "a") (.Identifier "b")) (.Identifier "c")] := by
  have h := claim_C5_left_assoc.2.2.1 "a" "b" "c" .minus .minus (Or.inr rfl) (Or.inr rfl)
  simpa using h

theorem parse_i64_digits (s : String) (n : Nat) (h : digitsToNat s.data = some n) :
    parse_i64 s = if (n : Int) ≤ i64max then some (n : Int) else none := by
  simp only [parse_i64]
  cases hd : s.data with
  | nil => rw [hd] at h; simp [digitsToNat] at h
  | cons c cs =>
    rw [hd] at h
    have hc : isDigitChar c = true := by
      by_contra hcc
      simp [digitsToNat, hcc] at h
    have hminus : ¬(c = '-') := by
      intro he
      rw [he] at hc
      exact absurd hc (by decide)
    have hplus : ¬(c = '+') := by
      intro he
      rw [he] at hc
      exact absurd hc (by decide)
    simp [hminus, hplus, h]

/-- Claim C8: every numeric literal matched by the grammar (a non-empty
all-digit string, characterised by `digitsToNat` succeeding) is parsed by
`parse_factor` as a signed 64-bit integer; exactly when the literal does
not fit in i64, parsing fails with `InvalidNumber` carrying the literal
text.  The third conjunct runs the full pipeline on a 20-digit literal. -/
theorem claim_C8_invalid_number (s : String) (n : Nat) (fuel : Nat)
    (h : digitsToNat s.data = some n) :
    (n ≤ 9223372036854775807 →
      parse_factor (fuel + 1) (.mk .factor "" [.mk .number s []]) = .ok (.Number n))
    ∧ (9223372036854775807 < n →
      parse_factor (fuel + 1) (.mk .factor "" [.mk .number s []]) =
        .error (.InvalidNumber s))
    ∧ parse_program "99999999999999999999;" =
        .error (.InvalidNumber "99999999999999999999") := by
  have hp := parse_i64_digits s n h
  refine ⟨?_, ?_, by decide⟩
  · intro hle
    have hle2 : (n : Int) ≤ i64max := by
      simp only [i64max]
      exact_mod_cast hle
    simp [parse_factor, Pair.rule, Pair.str, Pair.inner, hp, hle2]
  · intro hlt
    have hlt2 : ¬((n : Int) ≤ i64max) := by
      simp only [i64max, not_le]
      exact_mod_cast hlt
    simp [parse_factor, Pair.rule, Pair.str, Pair.inner, hp, hlt2]

/-- Witness for C8: the literal `9223372036854775808` (i64::MAX + 1) is
rejected with `InvalidNumber`. -/
theorem claim_C8_invalid_number_witness :
    parse_factor 1 (.mk .factor "" [.mk .number "9223372036854775808" []]) =
      .error (.InvalidNumber "9223372036854775808") :=
  (claim_C8_invalid_number "9223372036854775808" 9223372036854775808 0
    (by decide)).2.1 (by decide)

theorem stmtTop_of_exprNoAssign (n : ASTNode) (h : exprNoAssign n = true) :
    stmtTopAssignOnly n = true := by
  cases n <;> simp_all [stmtTopAssignOnly, exprNoAssign]

theorem parse_noAssign (fuel : Nat) :
    (∀ p n, parse_expression fuel p = .ok n → exprNoAssign n = true)
    ∧ (∀ acc l n, exprNoAssign acc = true →
        parse_expression_fold fuel acc l = .ok n → exprNoAssign n = true)
    ∧ (∀ p n, parse_term fuel p = .ok n → exprNoAssign n = true)
    ∧ (∀ acc l n, exprNoAssign acc = true →
        parse_term_fold fuel acc l = .ok n → exprNoAssign n = true)
    ∧ (∀ p n, parse_factor fuel p = .ok n → exprNoAssign n = true) := by
  induction fuel with
  | zero =>
    refine ⟨?_, ?_, ?_, ?_, ?_⟩
    · intro p n h; simp [parse_expression] at h
    · intro acc l n _ h; simp [parse_expression_fold] at h
    · intro p n h; simp [parse_term] at h
    · intro acc l n _ h; simp [parse_term_fold] at h
    · intro p n h; simp [parse_factor] at h
  | succ fuel ih =>
    obtain ⟨ihe, ihef, iht, ihtf, ihf⟩ := ih
    refine ⟨?_, ?_, ?_, ?_, ?_⟩
    · intro p n h
      simp only [parse_expression] at h
      split at h
      · simp at h
      · split at h
        · simp at h
        · rename_i first rest hpi xr m hm
          exact ihef m rest n (iht first m hm) h
    · intro acc l n hacc h
      match l with
      | [] =>
        simp only [parse_expression_fold] at h
        cases h
        exact hacc
      | [op] => simp [parse_expression_fold] at h
      | op :: t :: rest =>
        simp only [parse_expression_fold] at h
        split at h
        · split at h
          · split at h
            · simp at h
            · rename_i tn htn
              refine ihef (.Add acc tn) rest n ?_ h
              simp [exprNoAssign, hacc, iht t tn htn]
          · split at h
            · simp at h
            · rename_i tn htn
              refine ihef (.Sub acc tn) rest n ?_ h
              simp [exprNoAssign, hacc, iht t tn htn]
          · simp at h
        · simp at h
    · intro p n h
      simp only [parse_term] at h
      split at h
      · simp at h
      · split at h
        · simp at h
        · rename_i first rest hpi xr m hm
          exact ihtf m rest n (ihf first m hm) h
    · intro acc l n hacc h
      match l with
      | [] =>
        simp only [parse_term_fold] at h
        cases h
        exact hacc
      | [op] => simp [parse_term_fold] at h
      | op :: t :: rest =>
        simp only [parse_term_fold] at h
        split at h
        · split at h
          · split at h
            · simp at h
            · rename_i tn htn
              refine ihtf (.Mul acc tn) rest n ?_ h
              simp [exprNoAssign, hacc, ihf t tn htn]
          · split at h
            · simp at h
            · rename_i tn htn
              refine ihtf (.Div acc tn) rest n ?_ h
              simp [exprNoAssign, hacc, ihf t tn htn]
          · simp at h
        · simp at h
    · intro p n h
      simp only [parse_factor] at h
      split at h
      · simp at h
      · split at h
        · split at h
          · rename_i m hm
            cases h
            simp [exprNoAssign]
          · simp at h
        · cases h
          simp [exprNoAssign]
        · rename_i inner rest hrule
          exact ihe _ n h
        · simp at h

theorem parse_assignment_noAssign (fuel : Nat) (p : Pair) (n : ASTNode)
    (h : parse_assignment fuel p = .ok n) : stmtTopAssignOnly n = true := by
  simp only [parse_assignment] at h
  split at h
  · simp at h
  · split at h
    · simp at h
    · split at h
      · simp at h
      · rename_i value hv
        cases h
        simp only [stmtTopAssignOnly]
        exact (parse_noAssign fuel).1 _ value hv

theorem parse_statement_noAssign (fuel : Nat) (p : Pair) (n : ASTNode)
    (h : parse_statement fuel p = .ok n) : stmtTopAssignOnly n = true := by
  simp only [parse_statement] at h
  split at h
  · simp at h
  · split at h
    · exact parse_assignment_noAssign fuel _ n h
    · exact stmtTop_of_exprNoAssign n ((parse_noAssign fuel).1 _ n h)
    · simp at h

theorem parse_statement_list_noAssign (fuel : Nat) (ps : List Pair) :
    ∀ ns, parse_statement_list fuel ps = .ok ns →
      ∀ n ∈ ns, stmtTopAssignOnly n = true := by
  induction ps with
  | nil =>
    intro ns h n hn
    simp only [parse_statement_list] at h
    cases h
    simp at hn
  | cons p rest ih =>
    intro ns h n hn
    simp only [parse_statement_list] at h
    split at h
    · split at h
      · simp at h
      · split at h
        · simp at h
        · rename_i x1 m hm x2 ms hms
          cases h
          rcases List.mem_cons.mp hn with rfl | hmem
          · exact parse_statement_noAssign fuel p n hm
          · exact ih ms hms n hmem
    · exact ih ns h n hn

theorem parse_top_list_noAssign (fuel : Nat) (ps : List Pair) :
    ∀ ns, parse_top_list fuel ps = .ok ns →
      ∀ n ∈ ns, stmtTopAssignOnly n = true := by
  induction ps with
  | nil =>
    intro ns h n hn
    simp only [parse_top_list] at h
    cases h
    simp at hn
  | cons p rest ih =>
    intro ns h n hn
    simp only [parse_top_list] at h
    split at h
    · split at h
      · simp at h
      · split at h
        · simp at h
        · rename_i x1 ms1 hms1 x2 ms2 hms2
          cases h
          rcases List.mem_append.mp hn with hmem | hmem
          · exact parse_statement_list_noAssign fuel p.inner ms1 hms1 n hmem
          · exact ih ms2 hms2 n hmem
    · exact ih ns h n hn

/-- Claim C9: in every AST sequence returned successfully by
`parse_program`, an `Assignment` node occurs only as the root of a
top-level statement — the value sub-tree of an `Assignment` and the
operand sub-trees of `Add`/`Sub`/`Mul`/`Div` contain no `Assignment`
node. -/
theorem claim_C9_no_nested_assignment (input : String) (nodes : List ASTNode)
    (h : parse_program input = .ok nodes) :
    ∀ n ∈ nodes, stmtTopAssignOnly n = true := by
  simp only [parse_program] at h
  split at h
  · simp at h
  · rename_i pairs hp
    exact parse_top_list_noAssign _ pairs nodes h

/-- Witness for C9: the parse of `"x = 1 + 2;"` produces a single
statement whose assignment sits at the root with an assignment-free
value. -/
theorem claim_C9_no_nested_assignment_witness :
    stmtTopAssignOnly (.Assignment "x" (.Add (.Number 1) (.Number 2))) = true :=
  claim_C9_no_nested_assignment "x = 1 + 2;"
    [.Assignment "x" (.Add (.Number 1) (.Number 2))] (by decide) _ (by simp)

theorem lib_eval_node_eq (n : ASTNode) :
    ∀ env, Lib.eval_node n env = toLibResult (Interpreter.eval_node n env) := by
  induction n with
  | Number k => intro env; simp [Lib.eval_node, Interpreter.eval_node, toLibResult]
  | Identifier name =>
    intro env
    simp only [Lib.eval_node, Interpreter.eval_node]
    cases envGet env name <;> simp [toLibResult, errToString]
  | Assignment name value ih =>
    intro env
    simp only [Lib.eval_node, Interpreter.eval_node, ih env]
    cases Interpreter.eval_node value env <;> simp [toLibResult]
  | Add l r ihl ihr =>
    intro env
    simp only [Lib.eval_node, Interpreter.eval_node, ihl env]
    cases Interpreter.eval_node l env with
    | ok lv env1 =>
      simp only [toLibResult, ihr env1]
      cases Interpreter.eval_node r env1 <;> simp [toLibResult]
    | err e env1 => simp [toLibResult]
    | panicked => simp [toLibResult]
  | Sub l r ihl ihr =>
    intro env
    simp only [Lib.eval_node, Interpreter.eval_node, ihl env]
    cases Interpreter.eval_node l env with
    | ok lv env1 =>
      simp only [toLibResult, ihr env1]
      cases Interpreter.eval_node r env1 <;> simp [toLibResult]
    | err e env1 => simp [toLibResult]
    | panicked => simp [toLibResult]
  | Mul l r ihl ihr =>
    intro env
    simp only [Lib.eval_node, Interpreter.eval_node, ihl env]
    cases Interpreter.eval_node l env with
    | ok lv env1 =>
      simp only [toLibResult, ihr env1]
      cases Interpreter.eval_node r env1 <;> simp [toLibResult]
    | err e env1 => simp [toLibResult]
    | panicked => simp [toLibResult]
  | Div l r ihl ihr =>
    intro env
    simp only [Lib.eval_node, Interpreter.eval_node, ihl env]
    cases Interpreter.eval_node l env with
    | ok lv env1 =>
      simp only [toLibResult, ihr env1]
      cases Interpreter.eval_node r env1 with
      | ok rv env2 =>
        simp only [toLibResult]
        by_cases hz : rv = 0
        · simp [hz, toLibResult, errToString]
        · by_cases hm : lv = i64min ∧ rv = -1
          · simp [hz, hm, toLibResult]
          · simp [hz, hm, toLibResult]
      | err e env2 => simp [toLibResult]
      | panicked => simp [toLibResult]
    | err e env1 => simp [toLibResult]
    | panicked => simp [toLibResult]

theorem lib_eval_eq (nodes : List ASTNode) :
    ∀ env, Lib.eval env nodes = toLibOutcome (Interpreter.eval env nodes) := by
  induction nodes with
  | nil => intro env; simp [Lib.eval, Interpreter.eval, toLibOutcome]
  | cons x xs ih =>
    intro env
    simp only [Lib.eval, Interpreter.eval, lib_eval_node_eq x env]
    cases Interpreter.eval_node x env with
    | ok v env1 => simp only [toLibResult]; exact ih env1
    | err e env1 => simp [toLibResult, toLibOutcome]
    | panicked => simp [toLibResult, toLibOutcome]

theorem lib_parse_eq (fuel : Nat) :
    (∀ p, Lib.parse_expression fuel p = parse_expression fuel p)
    ∧ (∀ acc l, Lib.parse_expression_fold fuel acc l = parse_expression_fold fuel acc l)
    ∧ (∀ p, Lib.parse_term fuel p = parse_term fuel p)
    ∧ (∀ acc l, Lib.parse_term_fold fuel acc l = parse_term_fold fuel acc l)
    ∧ (∀ p, Lib.parse_factor fuel p = parse_factor fuel p) := by
  induction fuel with
  | zero =>
    exact ⟨fun p => rfl, fun acc l => rfl, fun p => rfl, fun acc l => rfl, fun p => rfl⟩
  | succ fuel ih =>
    obtain ⟨ihe, ihef, iht, ihtf, ihf⟩ := ih
    refine ⟨?_, ?_, ?_, ?_, ?_⟩
    · intro p
      simp only [Lib.parse_expression, parse_expression]
      cases hpi : p.inner with
      | nil => simp
      | cons first rest =>
        simp only [iht first]
        cases ht : parse_term fuel first <;> simp [ihef]
    · intro acc l
      match l with
      | [] => simp [Lib.parse_expression_fold, parse_expression_fold]
      | [op] => simp [Lib.parse_expression_fold, parse_expression_fold]
      | op :: t :: rest =>
        simp only [Lib.parse_expression_fold, parse_expression_fold]
        cases hr : op.rule <;> simp
        case add_op =>
          by_cases h1 : op.str = "+"
          · simp only [h1, iht t]
            cases ht : parse_term fuel t <;> simp [ihef]
          · by_cases h2 : op.str = "-"
            · simp only [h1, h2, iht t]
              cases ht : parse_term fuel t <;> simp [h1, h2, ihef]
            · simp [h1, h2]
    · intro p
      simp only [Lib.parse_term, parse_term]
      cases hpi : p.inner with
      | nil => simp
      | cons first rest =>
        simp only [ihf first]
        cases ht : parse_factor fuel first <;> simp [ihtf]
    · intro acc l
      match l with
      | [] => simp [Lib.parse_term_fold, parse_term_fold]
      | [op] => simp [Lib.parse_term_fold, parse_term_fold]
      | op :: t :: rest =>
        simp only [Lib.parse_term_fold, parse_term_fold]
        cases hr : op.rule <;> simp
        case mul_op =>
          by_cases h1 : op.str = "*"
          · simp only [h1, ihf t]
            cases ht : parse_factor fuel t <;> simp [ihtf]
          · by_cases h2 : op.str = "/"
            · simp only [h1, h2, ihf t]
              cases ht : parse_factor fuel t <;> simp [h1, h2, ihtf]
            · simp [h1, h2]
    · intro p
      simp only [Lib.parse_factor, parse_factor]
      cases hpi : p.inner with
      | nil => simp
      | cons inner rest =>
        cases hr : inner.rule
        case number => cases hn : parse_i64 inner.str <;> simp [hr, hn]
        case expression => simp [hr, ihe inner]
        all_goals simp [hr]

theorem lib_parse_assignment_eq (fuel : Nat) (p : Pair) :
    Lib.parse_assignment fuel p = parse_assignment fuel p := by
  simp only [Lib.parse_assignment, parse_assignment]
  cases hpi : p.inner with
  | nil => simp
  | cons name_pair rest =>
    cases rest with
    | nil => simp
    | cons expr_pair rest2 => simp [(lib_parse_eq fuel).1 expr_pair]

theorem lib_parse_statement_eq (fuel : Nat) (p : Pair) :
    Lib.parse_statement fuel p = parse_statement fuel p := by
  simp only [Lib.parse_statement, parse_statement]
  cases hpi : p.inner with
  | nil => simp
  | cons stmt rest =>
    cases hr : stmt.rule
    case assignment => simp [hr, lib_parse_assignment_eq fuel stmt]
    case expression => simp [hr, (lib_parse_eq fuel).1 stmt]
    all_goals simp [hr]

theorem lib_parse_statement_list_eq (fuel : Nat) (ps : List Pair) :
    Lib.parse_statement_list fuel ps = parse_statement_list fuel ps := by
  induction ps with
  | nil => rfl
  | cons p rest ih =>
    simp only [Lib.parse_statement_list, parse_statement_list]
    by_cases hs : p.rule = Rule.statement
    · simp [hs, lib_parse_statement_eq fuel p, ih]
    · simp [hs, ih]

theorem lib_parse_top_list_eq (fuel : Nat) (ps : List Pair) :
    Lib.parse_top_list fuel ps = parse_top_list fuel ps := by
  induction ps with
  | nil => rfl
  | cons p rest ih =>
    simp only [Lib.parse_top_list, parse_top_list]
    by_cases hs : p.rule = Rule.program
    · simp [hs, lib_parse_statement_list_eq fuel p.inner, ih]
    · simp [hs, ih]

/-- Claim C10: the duplicate implementations in src/src/lib.rs and
src/src/parser/mod.rs are behaviorally equivalent: for every input string
the two `parse_program` functions return identical results (identical AST
sequences, or both fail), and for every AST sequence the two
`Interpreter::eval` runs from equal environments produce identical
outcomes — equal final environments, agreement on success versus failure,
with the lib.rs `String` errors being exactly the rendering
(`errToString`) of the mod.rs `EvalError` variants. -/
theorem claim_C10_duplicate_equivalence :
    (∀ input, Lib.parse_program input = parse_program input)
    ∧ (∀ n env, Lib.eval_node n env = toLibResult (Interpreter.eval_node n env))
    ∧ (∀ env nodes, Lib.eval env nodes = toLibOutcome (Interpreter.eval env nodes)) := by
  refine ⟨?_, ?_, ?_⟩
  · intro input
    simp only [Lib.parse_program, parse_program]
    cases pest_parse input with
    | none => rfl
    | some pairs => simp [lib_parse_top_list_eq]
  · intro n env
    exact lib_eval_node_eq n env
  · intro env nodes
    exact lib_eval_eq nodes env
